import Mathlib

/-!
Shallow embedding of the ZDHC Wastewater Compliance Checker core
(src/src/App.js): the static limit table `complianceLimits`, the limit
resolver `getLimit`, the input parser `getInputValue` (JS `parseFloat`
followed by an `isNaN` check), and the evaluation function
`checkCompliance` that maps over the four fixed parameter lists.

Modelling conventions:
- JS numbers are modelled as exact rationals (`ℚ`); `parseFloat` can also
  produce the JS values `Infinity` / `-Infinity`, so parsed measured
  values live in `JSNum` (finite rational, or an infinity).  Floating
  point rounding is abstracted away: every decimal literal is read
  exactly.  `NaN` never flows past `getInputValue` (the `isNaN` guard
  turns it into `none`), so it needs no representation.
- JS `undefined` / `null` are modelled as `Option.none`.
- The nested limit objects are a tagged type `LimitSpec`: a flat
  tier-keyed object, or an industry-keyed object holding one tier map per
  industry (every industry-scoped entry in the table defines both `T` and
  `L`, which this type reflects).
-/

/-- Industry selector: `'T'` Textile, `'L'` Leather. -/
inductive Industry where
  | T
  | L
deriving DecidableEq, Repr

/-- Compliance level selector: `'F'` Foundational, `'P'` Progressive, `'A'` Aspirational. -/
inductive Tier where
  | F
  | P
  | A
deriving DecidableEq, Repr

/-- Discharge type selector: carried in state, never read by `checkCompliance`. -/
inductive DischargeType where
  | Direct
  | Indirect
  | ZLD
deriving DecidableEq, Repr

/-- A resolved limit value: a scalar ceiling, or a `{min, max}` range object. -/
inductive LimitValue where
  | scalar (q : ℚ)
  | range (min max : ℚ)
deriving DecidableEq, Repr

/-- One tier-keyed limit object (`{F: …, P: …, A: …}`); missing keys are `none`. -/
structure TierMap where
  F : Option LimitValue
  P : Option LimitValue
  A : Option LimitValue
deriving DecidableEq, Repr

/-- JS property access `m[tier]` on a tier map. -/
def TierMap.get (m : TierMap) : Tier → Option LimitValue
  | Tier.F => m.F
  | Tier.P => m.P
  | Tier.A => m.A

/-- A parameter's entry in `complianceLimits`: either a flat tier map
(MRSL, sludge) or an industry-keyed object with one tier map per industry. -/
inductive LimitSpec where
  | flat (m : TierMap)
  | byIndustry (t l : TierMap)
deriving DecidableEq, Repr

/-- A JS number as produced by `parseFloat` when it is not `NaN`. -/
inductive JSNum where
  | fin (q : ℚ)
  | posInf
  | negInf
deriving DecidableEq, Repr

/-- JS comparison `v <= q` for a parsed value against a finite limit. -/
def JSNum.leQ : JSNum → ℚ → Bool
  | JSNum.fin x, q => decide (x ≤ q)
  | JSNum.posInf, _ => false
  | JSNum.negInf, _ => true

/-- JS comparison `v >= q` for a parsed value against a finite limit. -/
def JSNum.geQ : JSNum → ℚ → Bool
  | JSNum.fin x, q => decide (q ≤ x)
  | JSNum.posInf, _ => true
  | JSNum.negInf, _ => false

/-- JS property access `limit.min`: defined only on range objects (`undefined`,
i.e. `none`, on a plain number). -/
def LimitValue.minF : LimitValue → Option ℚ
  | LimitValue.range mn _ => some mn
  | LimitValue.scalar _ => none

/-- JS property access `limit.max`: defined only on range objects. -/
def LimitValue.maxF : LimitValue → Option ℚ
  | LimitValue.range _ mx => some mx
  | LimitValue.scalar _ => none

/-! ### The `parseFloat` model

ECMAScript `parseFloat`: skip leading whitespace, then read the longest
prefix matching `StrDecimalLiteral` (optional sign, then `Infinity`, or
digits with an optional fraction part and an optional exponent part);
`NaN` (here `none`) when no such prefix exists.  Whitespace is modelled
by the ASCII forms; trailing garbage after the numeric prefix is ignored,
exactly as in JS. -/

/-- ASCII forms of ECMAScript whitespace accepted before the number. -/
def isWS (c : Char) : Bool :=
  c = ' ' || c = '\t' || c = '\n' || c = '\r' || c = Char.ofNat 11 || c = Char.ofNat 12

/-- Split a character list into its leading run of decimal digits and the rest. -/
def takeDigits : List Char → List Char × List Char
  | [] => ([], [])
  | c :: cs =>
    if c.isDigit then (c :: (takeDigits cs).1, (takeDigits cs).2) else ([], c :: cs)

/-- Numeric value of a digit run. -/
def digitsVal (ds : List Char) : ℕ :=
  ds.foldl (fun a c => 10 * a + (c.toNat - 48)) 0

/-- Read an optional exponent part (`e`/`E`, optional sign, digits) at the head
of the list; `0` when none is present (the `e` is then not consumed, which is
irrelevant here because `parseFloat` discards the unconsumed suffix). -/
def parseExpPart (s : List Char) : ℤ :=
  match s with
  | c :: rest =>
    if c = 'e' || c = 'E' then
      match rest with
      | c2 :: rest2 =>
        if c2 = '+' then
          if (takeDigits rest2).1.isEmpty then 0 else (digitsVal (takeDigits rest2).1 : ℤ)
        else if c2 = '-' then
          if (takeDigits rest2).1.isEmpty then 0 else -(digitsVal (takeDigits rest2).1 : ℤ)
        else
          if (takeDigits rest).1.isEmpty then 0 else (digitsVal (takeDigits rest).1 : ℤ)
      | [] => 0
    else 0
  | [] => 0

/-- Parse the part after the optional sign: `Infinity`, or a decimal mantissa
(digits, optional `.` and fraction digits — at least one digit overall) with an
optional exponent.  `none` models `NaN`.  The exact decimal value
`±(intDigits.fracDigits) · 10^e` is assembled as a single `mkRat` over integer
arithmetic (the irreducible `ℚ` field operations would block kernel
evaluation). -/
def parseAfterSign (neg : Bool) (s : List Char) : Option JSNum :=
  if s.take 8 = String.toList "Infinity" then
    some (if neg then JSNum.negInf else JSNum.posInf)
  else
    let intPart := takeDigits s
    let fracPart : List Char × List Char :=
      match intPart.2 with
      | [] => ([], [])
      | c :: rest => if c = '.' then takeDigits rest else ([], c :: rest)
    if intPart.1.isEmpty && fracPart.1.isEmpty then none
    else
      let n : ℕ := digitsVal intPart.1 * 10 ^ fracPart.1.length + digitsVal fracPart.1
      let e : ℤ := parseExpPart fracPart.2
      some (JSNum.fin (mkRat ((if neg then -(n : ℤ) else (n : ℤ)) * 10 ^ e.toNat)
        (10 ^ fracPart.1.length * 10 ^ (-e).toNat)))

/-- The ECMAScript `parseFloat` builtin; `none` models `NaN`. -/
def jsParseFloat (s : String) : Option JSNum :=
  match s.toList.dropWhile isWS with
  | [] => parseAfterSign false []
  | c :: r =>
    if c = '+' then parseAfterSign false r
    else if c = '-' then parseAfterSign true r
    else parseAfterSign false (c :: r)

/-- The source's `getInputValue` (App.js lines 165–168): `parseFloat` the raw text of the
field, and return `null` (`none`) when the result is `NaN`.  Since `none`
already models `NaN`, the `isNaN` guard is the identity here; infinities pass
through because `isNaN(Infinity)` is `false`. -/
def getInputValue (params : String → String) (id : String) : Option JSNum :=
  jsParseFloat (params id)

/-! ### The limit resolver -/

/-- The source's `getLimit` (App.js lines 171–192).  An absent spec returns `none`;
an industry-keyed spec is entered at the selected industry, otherwise the
spec itself is the tier map; the selected tier is looked up, falling back
to `'F'` when the tier has no entry; `none` when neither exists. -/
def getLimit (paramLimits : Option LimitSpec) (industryType : Industry)
    (complianceLevel : Tier) : Option LimitValue :=
  match paramLimits with
  | none => none
  | some spec =>
    let levelLimits : TierMap :=
      match spec with
      | LimitSpec.byIndustry t l =>
        match industryType with
        | Industry.T => t
        | Industry.L => l
      | LimitSpec.flat m => m
    match levelLimits.get complianceLevel with
    | some limit => some limit
    | none => levelLimits.get Tier.F

/-! ### The static limit table (App.js lines 15–64) -/

/-- Flat spec with a single Foundational scalar limit. -/
def fScalar (q : ℚ) : Option LimitSpec :=
  some (LimitSpec.flat ⟨some (LimitValue.scalar q), none, none⟩)

/-- Flat spec with a single Foundational range limit. -/
def fRange (lo hi : ℚ) : Option LimitSpec :=
  some (LimitSpec.flat ⟨some (LimitValue.range lo hi), none, none⟩)

/-- Industry-keyed spec with scalar limits for all three tiers of both industries. -/
def tlScalar (tF tP tA lF lP lA : ℚ) : Option LimitSpec :=
  some (LimitSpec.byIndustry
    ⟨some (LimitValue.scalar tF), some (LimitValue.scalar tP), some (LimitValue.scalar tA)⟩
    ⟨some (LimitValue.scalar lF), some (LimitValue.scalar lP), some (LimitValue.scalar lA)⟩)

namespace complianceLimits

namespace mrsl

def np : Option LimitSpec := fScalar 5
def npeo : Option LimitSpec := fScalar 5
def op : Option LimitSpec := fScalar 5
def opeo : Option LimitSpec := fScalar 5
def triclosan : Option LimitSpec := fScalar 100
def permethrin : Option LimitSpec := fScalar 500
def sccps : Option LimitSpec := fScalar 25
def mccps : Option LimitSpec := fScalar 500
def pcp : Option LimitSpec := fScalar (mkRat 5 10)
def benzene : Option LimitSpec := fScalar 1
def toluene : Option LimitSpec := fScalar 1
def xylene : Option LimitSpec := fScalar 1
def dehp : Option LimitSpec := fScalar 10
def pfos : Option LimitSpec := fScalar (mkRat 1 100)
def pfoa : Option LimitSpec := fScalar 1
def benzidine : Option LimitSpec := fScalar (mkRat 1 10)
def o_toluidine : Option LimitSpec := fScalar (mkRat 1 10)

end mrsl

namespace heavyMetals

def arsenic : Option LimitSpec := tlScalar (mkRat 5 100) (mkRat 1 100) (mkRat 5 1000) (mkRat 5 100) (mkRat 1 100) (mkRat 5 1000)
def cadmium : Option LimitSpec := tlScalar (mkRat 1 100) (mkRat 5 1000) (mkRat 1 1000) (mkRat 1 100) (mkRat 5 1000) (mkRat 1 1000)
def chromiumVI : Option LimitSpec := tlScalar (mkRat 5 100) (mkRat 1 100) (mkRat 5 1000) (mkRat 15 100) (mkRat 5 100) (mkRat 1 100)
def totalChromium : Option LimitSpec := tlScalar (mkRat 2 10) (mkRat 1 10) (mkRat 5 100) (mkRat 5 10) (mkRat 2 10) (mkRat 1 10)
def copper : Option LimitSpec := tlScalar (mkRat 1 10) (mkRat 5 100) (mkRat 2 100) (mkRat 1 10) (mkRat 5 100) (mkRat 2 100)
def lead : Option LimitSpec := tlScalar (mkRat 5 100) (mkRat 1 100) (mkRat 5 1000) (mkRat 5 100) (mkRat 1 100) (mkRat 5 1000)
def mercury : Option LimitSpec := tlScalar (mkRat 1 100) (mkRat 5 1000) (mkRat 1 1000) (mkRat 1 100) (mkRat 5 1000) (mkRat 1 1000)
def nickel : Option LimitSpec := tlScalar (mkRat 2 10) (mkRat 1 10) (mkRat 5 100) (mkRat 2 10) (mkRat 1 10) (mkRat 5 100)
def zinc : Option LimitSpec := tlScalar (mkRat 5 10) (mkRat 2 10) (mkRat 1 10) (mkRat 5 10) (mkRat 2 10) (mkRat 1 10)

end heavyMetals

namespace conventional

def ph : Option LimitSpec :=
  some (LimitSpec.byIndustry
    ⟨some (LimitValue.range 6 9), some (LimitValue.range 6 9), some (LimitValue.range 6 9)⟩
    ⟨some (LimitValue.range 6 9), some (LimitValue.range 6 9), some (LimitValue.range 6 9)⟩)
def temp_diff : Option LimitSpec := tlScalar 15 10 5 15 10 5
def e_coli : Option LimitSpec := tlScalar 126 100 50 126 100 50
def bod5 : Option LimitSpec := tlScalar 30 20 10 50 30 15
def cod : Option LimitSpec := tlScalar 150 80 40 250 150 75
def tss : Option LimitSpec := tlScalar 50 30 15 70 40 20
def aox : Option LimitSpec := tlScalar 3 1 (mkRat 5 10) 3 1 (mkRat 5 10)
def oil_grease : Option LimitSpec := tlScalar 10 5 2 20 10 5
def total_phenols : Option LimitSpec := tlScalar (mkRat 5 10) (mkRat 1 10) (mkRat 5 100) (mkRat 5 10) (mkRat 1 10) (mkRat 5 100)
def total_nitrogen : Option LimitSpec := tlScalar 20 10 5 35 20 10
def total_phosphorus : Option LimitSpec := tlScalar 3 1 (mkRat 5 10) 3 1 (mkRat 5 10)
def sulphide : Option LimitSpec := tlScalar (mkRat 5 10) (mkRat 1 10) (mkRat 5 100) 1 (mkRat 2 10) (mkRat 1 10)

end conventional

namespace sludge

def np : Option LimitSpec := fScalar (mkRat 4 10)
def pcp : Option LimitSpec := fScalar (mkRat 2 10)
def arsenic_sludge : Option LimitSpec := fScalar 5
def chromiumVI_sludge : Option LimitSpec := fScalar (mkRat 5 10)
def mercury_sludge : Option LimitSpec := fScalar (mkRat 1 10)
def ph_sludge : Option LimitSpec := fRange 5 11
def faecal_coliform : Option LimitSpec := fScalar 1000

end sludge

end complianceLimits

/-! ### Parameter definition lists (App.js lines 195–250) -/

/-- One entry of a parameter definition array: `{id, name, limits, unit}` with
an optional `isRange: true` flag; `unit` is absent (undefined) on the pH rows. -/
structure Param where
  id : String
  name : String
  limits : Option LimitSpec
  unit : Option String
  isRange : Bool
deriving DecidableEq, Repr

def mrslParams : List Param := [
  ⟨"np", "Nonylphenol (NP)", complianceLimits.mrsl.np, some "µg/L", false⟩,
  ⟨"npeo", "Nonylphenol Ethoxylates (NPEO)", complianceLimits.mrsl.npeo, some "µg/L", false⟩,
  ⟨"op", "Octylphenol (OP)", complianceLimits.mrsl.op, some "µg/L", false⟩,
  ⟨"opeo", "Octylphenol Ethoxylates (OPEO)", complianceLimits.mrsl.opeo, some "µg/L", false⟩,
  ⟨"triclosan", "Triclosan", complianceLimits.mrsl.triclosan, some "µg/L", false⟩,
  ⟨"permethrin", "Permethrin", complianceLimits.mrsl.permethrin, some "µg/L", false⟩,
  ⟨"sccps", "SCCPs", complianceLimits.mrsl.sccps, some "µg/L", false⟩,
  ⟨"mccps", "MCCPs", complianceLimits.mrsl.mccps, some "µg/L", false⟩,
  ⟨"pcp", "Pentachlorophenol (PCP)", complianceLimits.mrsl.pcp, some "µg/L", false⟩,
  ⟨"benzene", "Benzene", complianceLimits.mrsl.benzene, some "µg/L", false⟩,
  ⟨"toluene", "Toluene", complianceLimits.mrsl.toluene, some "µg/L", false⟩,
  ⟨"xylene", "Xylene", complianceLimits.mrsl.xylene, some "µg/L", false⟩,
  ⟨"dehp", "DEHP (Phthalate)", complianceLimits.mrsl.dehp, some "µg/L", false⟩,
  ⟨"pfos", "PFOS", complianceLimits.mrsl.pfos, some "µg/L", false⟩,
  ⟨"pfoa", "PFOA", complianceLimits.mrsl.pfoa, some "µg/L", false⟩,
  ⟨"benzidine", "Benzidine", complianceLimits.mrsl.benzidine, some "µg/L", false⟩,
  ⟨"o_toluidine", "o-Toluidine", complianceLimits.mrsl.o_toluidine, some "µg/L", false⟩]

def heavyMetalParams : List Param := [
  ⟨"arsenic", "Arsenic", complianceLimits.heavyMetals.arsenic, some "mg/L", false⟩,
  ⟨"cadmium", "Cadmium", complianceLimits.heavyMetals.cadmium, some "mg/L", false⟩,
  ⟨"chromiumVI", "Chromium (VI)", complianceLimits.heavyMetals.chromiumVI, some "mg/L", false⟩,
  ⟨"totalChromium", "Chromium, total", complianceLimits.heavyMetals.totalChromium, some "mg/L", false⟩,
  ⟨"copper", "Copper", complianceLimits.heavyMetals.copper, some "mg/L", false⟩,
  ⟨"lead", "Lead", complianceLimits.heavyMetals.lead, some "mg/L", false⟩,
  ⟨"mercury", "Mercury", complianceLimits.heavyMetals.mercury, some "mg/L", false⟩,
  ⟨"nickel", "Nickel", complianceLimits.heavyMetals.nickel, some "mg/L", false⟩,
  ⟨"zinc", "Zinc", complianceLimits.heavyMetals.zinc, some "mg/L", false⟩]

def conventionalParams : List Param := [
  ⟨"ph", "pH", complianceLimits.conventional.ph, none, true⟩,
  ⟨"temp_diff", "Temperature Difference (Δ°C)", complianceLimits.conventional.temp_diff, some "°C", false⟩,
  ⟨"e_coli", "E.coli", complianceLimits.conventional.e_coli, some "MPN/100-ml", false⟩,
  ⟨"bod5", "BOD5", complianceLimits.conventional.bod5, some "mg/L", false⟩,
  ⟨"cod", "COD", complianceLimits.conventional.cod, some "mg/L", false⟩,
  ⟨"tss", "TSS", complianceLimits.conventional.tss, some "mg/L", false⟩,
  ⟨"aox", "AOX", complianceLimits.conventional.aox, some "mg/L", false⟩,
  ⟨"oil_grease", "Oil and Grease", complianceLimits.conventional.oil_grease, some "mg/L", false⟩,
  ⟨"total_phenols", "Total Phenols", complianceLimits.conventional.total_phenols, some "mg/L", false⟩,
  ⟨"total_nitrogen", "Total Nitrogen", complianceLimits.conventional.total_nitrogen, some "mg/L", false⟩,
  ⟨"total_phosphorus", "Total Phosphorus", complianceLimits.conventional.total_phosphorus, some "mg/L", false⟩,
  ⟨"sulphide", "Sulphide", complianceLimits.conventional.sulphide, some "mg/L", false⟩]

def sludgeParams : List Param := [
  ⟨"np_sludge", "Nonylphenol (Sludge)", complianceLimits.sludge.np, some "mg/kg", false⟩,
  ⟨"pcp_sludge", "PCP (Sludge)", complianceLimits.sludge.pcp, some "mg/kg", false⟩,
  ⟨"arsenic_sludge", "Arsenic (Sludge)", complianceLimits.sludge.arsenic_sludge, some "mg/kg", false⟩,
  ⟨"chromiumVI_sludge", "Chromium (VI) (Sludge)", complianceLimits.sludge.chromiumVI_sludge, some "mg/kg", false⟩,
  ⟨"mercury_sludge", "Mercury (Sludge)", complianceLimits.sludge.mercury_sludge, some "mg/kg", false⟩,
  ⟨"ph_sludge", "pH (Sludge)", complianceLimits.sludge.ph_sludge, none, true⟩,
  ⟨"faecal_coliform", "Faecal Coliform (Sludge)", complianceLimits.sludge.faecal_coliform, some "MPN/g", false⟩]

/-- All 45 parameter definitions, in declaration order. -/
def allParams : List Param :=
  mrslParams ++ heavyMetalParams ++ conventionalParams ++ sludgeParams

/-- The limit specs occurring in the static table, one per parameter. -/
def tableSpecs : List (Option LimitSpec) := allParams.map Param.limits

/-! ### checkCompliance (App.js lines 253–326) -/

/-- One row pushed by `addResult`: the display value is `'N/A'` when the value
is `null` (kept here as `Option`), the limit is kept structurally (its
`"min-max"` string rendering is presentation only). -/
structure EvalResult where
  paramName : String
  value : Option JSNum
  limit : Option LimitValue
  isCompliant : Bool
  unit : String
deriving DecidableEq, Repr

/-- One entry pushed onto `newChartData`; `limit` and `minLimit` are absent
(undefined) keys on some pushes, and `unit` is `p.unit`, absent for pH. -/
structure ChartPoint where
  id : String
  name : String
  value : JSNum
  limit : Option LimitValue
  minLimit : Option ℚ
  unit : Option String
deriving DecidableEq, Repr

/-- JS `value !== null && limit !== null ? value <= limit : true` where the
limit may (only in dead branches for this table) be a range object, in which
case the JS comparison coerces the object to `NaN` and yields `false`. -/
def classifyScalar (value : Option JSNum) (limit : Option LimitValue) : Bool :=
  match value, limit with
  | some v, some (LimitValue.scalar q) => v.leQ q
  | some _, some (LimitValue.range _ _) => false
  | _, _ => true

/-- JS `value !== null && limit !== null ? (value >= limit.min && value <= limit.max) : true`;
on a scalar limit `limit.min` / `limit.max` are `undefined`, the comparisons
are against `NaN`, and the result is `false`. -/
def classifyRange (value : Option JSNum) (limit : Option LimitValue) : Bool :=
  match value, limit with
  | some v, some (LimitValue.range mn mx) => v.geQ mn && v.leQ mx
  | some _, some (LimitValue.scalar _) => false
  | _, _ => true

/-- Loop body of the MRSL and heavy-metal loops (and the non-range arm of the
conventional loop): scalar classification, chart point pushed exactly when both
value and limit are present. -/
def scalarStep (params : String → String) (ind : Industry) (tier : Tier)
    (p : Param) : EvalResult × List ChartPoint :=
  let value := getInputValue params p.id
  let limit := getLimit p.limits ind tier
  (⟨p.name, value, limit, classifyScalar value limit, p.unit.getD ""⟩,
   match value, limit with
   | some v, some l => [⟨p.id, p.name, v, some l, none, p.unit⟩]
   | _, _ => [])

/-- Loop body for a range parameter in the conventional loop: range
classification; `addResult` is called without a unit (so it defaults to `''`);
the chart point plots `limit.max` as the limit and carries `limit.min`. -/
def rangeStep (params : String → String) (ind : Industry) (tier : Tier)
    (p : Param) : EvalResult × List ChartPoint :=
  let value := getInputValue params p.id
  let limit := getLimit p.limits ind tier
  (⟨p.name, value, limit, classifyRange value limit, ""⟩,
   match value, limit with
   | some v, some l => [⟨p.id, p.name, v, (l.maxF).map LimitValue.scalar, l.minF, p.unit⟩]
   | _, _ => [])

/-- Conventional-loop body: branch on `p.isRange`. -/
def conventionalStep (params : String → String) (ind : Industry) (tier : Tier)
    (p : Param) : EvalResult × List ChartPoint :=
  if p.isRange then rangeStep params ind tier p else scalarStep params ind tier p

/-- Sludge-loop body: branch on `p.isRange`, never push chart data. -/
def sludgeStep (params : String → String) (ind : Industry) (tier : Tier)
    (p : Param) : EvalResult :=
  let value := getInputValue params p.id
  let limit := getLimit p.limits ind tier
  if p.isRange then ⟨p.name, value, limit, classifyRange value limit, ""⟩
  else ⟨p.name, value, limit, classifyScalar value limit, p.unit.getD ""⟩

/-- The output of one `checkCompliance` call: the three arrays handed to
`setResults` / `setOverallCompliant` / `setChartData`. -/
structure CheckOutcome where
  results : List EvalResult
  overallCompliant : Bool
  chartData : List ChartPoint
deriving DecidableEq, Repr

set_option linter.unusedVariables false in
/-- The source's `checkCompliance` (App.js lines 253–326): run the four loops in order;
`allCompliant` starts `true` and is cleared by any non-compliant row (a fold
over the result rows in push order); chart data is collected from the first
three loops only.  `dischargeType` is in scope (component state) but unused. -/
def checkCompliance (params : String → String) (industryType : Industry)
    (complianceLevel : Tier) (dischargeType : DischargeType) : CheckOutcome :=
  let mrslOut := mrslParams.map (scalarStep params industryType complianceLevel)
  let hmOut := heavyMetalParams.map (scalarStep params industryType complianceLevel)
  let convOut := conventionalParams.map (conventionalStep params industryType complianceLevel)
  let sludgeOut := sludgeParams.map (sludgeStep params industryType complianceLevel)
  let results := mrslOut.map Prod.fst ++ hmOut.map Prod.fst ++ convOut.map Prod.fst ++ sludgeOut
  { results := results
    overallCompliant := results.foldl (fun acc r => if r.isCompliant then acc else false) true
    chartData := (mrslOut.map Prod.snd).flatten ++ (hmOut.map Prod.snd).flatten
      ++ (convOut.map Prod.snd).flatten }

/-! ### Spec-side definitions used for comparison -/

/-- Spec §4.1 resolver, written from the spec's words for comparison with the
source's `getLimit`: absent spec → absent; descend into the industry branch
when the spec is industry-keyed, else the spec itself is the flat spec; return
the tier's entry when present, else the Foundational entry when present, else
absent. -/
def resolveLimit (spec : Option LimitSpec) (industry : Industry) (tier : Tier) :
    Option LimitValue :=
  match spec with
  | none => none
  | some sp =>
    let flat : TierMap :=
      match sp with
      | LimitSpec.byIndustry t l =>
        match industry with
        | Industry.T => t
        | Industry.L => l
      | LimitSpec.flat m => m
    match flat.get tier with
    | some v => some v
    | none =>
      match flat.get Tier.F with
      | some f => some f
      | none => none

/-- Discriminator: is this limit value a scalar (as opposed to a range)? -/
def LimitValue.isScalar : LimitValue → Bool
  | LimitValue.scalar _ => true
  | LimitValue.range _ _ => false

/-- A spec that defines only a Foundational limit: flat, with an `F` entry and
no `P` or `A` entry. -/
def fOnly : Option LimitSpec → Bool
  | some (LimitSpec.flat ⟨some _, none, none⟩) => true
  | _ => false

/-- The Foundational entry of a flat spec (absent on industry-keyed specs). -/
def flatF : Option LimitSpec → Option LimitValue
  | some (LimitSpec.flat m) => m.F
  | _ => none

/-- Does a trimmed, sign-stripped character list begin with numeric material —
`Infinity`, a decimal digit, or a dot immediately followed by a digit?  This
is the exact success condition of `parseAfterSign`. -/
def startsNumericAfterSign (l : List Char) : Bool :=
  decide (l.take 8 = String.toList "Infinity") ||
  (match l with
   | [] => false
   | c :: rest =>
     c.isDigit ||
     (if c = '.' then
       match rest with
       | [] => false
       | c2 :: _ => c2.isDigit
     else false))

/-- Does a raw string start (after leading whitespace and an optional sign)
with numeric material?  This is the exact success condition of
`jsParseFloat`. -/
def startsNumeric (s : String) : Bool :=
  match s.toList.dropWhile isWS with
  | [] => startsNumericAfterSign []
  | c :: r =>
    if c = '+' then startsNumericAfterSign r
    else if c = '-' then startsNumericAfterSign r
    else startsNumericAfterSign (c :: r)

/-- Modelled from the spec (§4.2 "valid decimal number"): the whole string is
a decimal numeral — an optional sign, then digits with an optional `.` and
fraction digits (at least one digit overall), then an optional exponent part —
and nothing else.  Used to compare the spec's wording with the source's
longest-prefix `parseFloat` behaviour. -/
def validExpTail : List Char → Bool
  | [] => true
  | c :: r =>
    (c = 'e' || c = 'E') &&
    (match r with
     | [] => false
     | c2 :: r2 =>
       if c2 = '+' || c2 = '-' then !r2.isEmpty && r2.all Char.isDigit
       else !r.isEmpty && r.all Char.isDigit)

/-- The tail of a whole-string decimal numeral after the optional sign:
digits with an optional `.` and fraction digits (at least one digit overall),
then an optional exponent part, consuming the whole string. -/
def validMantissaThen (l : List Char) : Bool :=
  let ip := takeDigits l
  match ip.2 with
  | '.' :: r =>
    let fp := takeDigits r
    (!ip.1.isEmpty || !fp.1.isEmpty) && validExpTail fp.2
  | rest => !ip.1.isEmpty && validExpTail rest

/-- Whole-string decimal-number validity, per the spec's words. -/
def isValidDecimal (s : String) : Bool :=
  match s.toList with
  | [] => false
  | c :: r =>
    if c = '+' || c = '-' then validMantissaThen r
    else validMantissaThen (c :: r)

/-! ### Helper lemmas -/

/-- The sign-stripped parser succeeds exactly on lists that begin with
numeric material. -/
theorem parseAfterSign_isSome (neg : Bool) (l : List Char) :
    (parseAfterSign neg l).isSome = startsNumericAfterSign l := by
  unfold parseAfterSign startsNumericAfterSign
  by_cases hInf : l.take 8 = String.toList "Infinity"
  · simp [hInf]
  · simp only [hInf, if_false, decide_eq_true_eq, decide_False]
    cases l with
    | nil => simp [takeDigits]
    | cons c ls =>
      by_cases hd : c.isDigit
      · simp [takeDigits, hd]
      · by_cases hdot : c = '.'
        · subst hdot
          cases ls with
          | nil => simp [takeDigits, hd]
          | cons c2 ls2 =>
            by_cases hd2 : c2.isDigit <;> simp [takeDigits, hd, hd2]
        · simp [takeDigits, hd, hdot]

/-- The parser `getInputValue` succeeds exactly on raw inputs that start (after optional
whitespace and sign) with numeric material. -/
theorem getInputValue_isSome_eq (params : String → String) (id : String) :
    (getInputValue params id).isSome = startsNumeric (params id) := by
  unfold getInputValue jsParseFloat startsNumeric
  cases h : (params id).toList.dropWhile isWS with
  | nil => exact parseAfterSign_isSome false []
  | cons c r =>
    by_cases h1 : c = '+'
    · simp [h1, parseAfterSign_isSome]
    · by_cases h2 : c = '-'
      · simp [h1, h2, parseAfterSign_isSome]
      · simp [h1, h2, parseAfterSign_isSome]

/-- Rows of a check action are exactly the per-parameter step outputs of the
four loops. -/
theorem mem_results_iff (params : String → String) (ind : Industry) (tier : Tier)
    (d : DischargeType) (r : EvalResult) :
    r ∈ (checkCompliance params ind tier d).results ↔
      (∃ p ∈ mrslParams, (scalarStep params ind tier p).1 = r) ∨
      (∃ p ∈ heavyMetalParams, (scalarStep params ind tier p).1 = r) ∨
      (∃ p ∈ conventionalParams, (conventionalStep params ind tier p).1 = r) ∨
      (∃ p ∈ sludgeParams, sludgeStep params ind tier p = r) := by
  simp [checkCompliance, List.mem_append, List.mem_map, List.map_map, Function.comp]

/-- Chart points of a check action come exactly from the first three loops. -/
theorem mem_chartData_iff (params : String → String) (ind : Industry) (tier : Tier)
    (d : DischargeType) (c : ChartPoint) :
    c ∈ (checkCompliance params ind tier d).chartData ↔
      (∃ p ∈ mrslParams, c ∈ (scalarStep params ind tier p).2) ∨
      (∃ p ∈ heavyMetalParams, c ∈ (scalarStep params ind tier p).2) ∨
      (∃ p ∈ conventionalParams, c ∈ (conventionalStep params ind tier p).2) := by
  simp [checkCompliance, List.mem_append, List.mem_flatten, List.mem_map, List.map_map,
    Function.comp]

/-- The result row a `scalarStep` produces, by fields. -/
theorem scalarStep_fst (params : String → String) (ind : Industry) (tier : Tier)
    (p : Param) :
    (scalarStep params ind tier p).1 =
      ⟨p.name, getInputValue params p.id, getLimit p.limits ind tier,
        classifyScalar (getInputValue params p.id) (getLimit p.limits ind tier),
        p.unit.getD ""⟩ := rfl

/-- The result row a `rangeStep` produces, by fields. -/
theorem rangeStep_fst (params : String → String) (ind : Industry) (tier : Tier)
    (p : Param) :
    (rangeStep params ind tier p).1 =
      ⟨p.name, getInputValue params p.id, getLimit p.limits ind tier,
        classifyRange (getInputValue params p.id) (getLimit p.limits ind tier),
        ""⟩ := rfl

/-- The result row a `sludgeStep` produces, by fields. -/
theorem sludgeStep_eq (params : String → String) (ind : Industry) (tier : Tier)
    (p : Param) :
    sludgeStep params ind tier p =
      (if p.isRange then
        ⟨p.name, getInputValue params p.id, getLimit p.limits ind tier,
          classifyRange (getInputValue params p.id) (getLimit p.limits ind tier), ""⟩
      else
        ⟨p.name, getInputValue params p.id, getLimit p.limits ind tier,
          classifyScalar (getInputValue params p.id) (getLimit p.limits ind tier),
          p.unit.getD ""⟩ : EvalResult) := rfl

/-- Membership in the chart output of a `scalarStep`. -/
theorem mem_scalarStep_chart (params : String → String) (ind : Industry) (tier : Tier)
    (p : Param) (c : ChartPoint) :
    c ∈ (scalarStep params ind tier p).2 ↔
      ∃ v l, getInputValue params p.id = some v ∧ getLimit p.limits ind tier = some l ∧
        c = ⟨p.id, p.name, v, some l, none, p.unit⟩ := by
  cases hv : getInputValue params p.id <;> cases hl : getLimit p.limits ind tier <;>
    simp [scalarStep, hv, hl]

/-- Membership in the chart output of a `rangeStep`. -/
theorem mem_rangeStep_chart (params : String → String) (ind : Industry) (tier : Tier)
    (p : Param) (c : ChartPoint) :
    c ∈ (rangeStep params ind tier p).2 ↔
      ∃ v l, getInputValue params p.id = some v ∧ getLimit p.limits ind tier = some l ∧
        c = ⟨p.id, p.name, v, (l.maxF).map LimitValue.scalar, l.minF, p.unit⟩ := by
  cases hv : getInputValue params p.id <;> cases hl : getLimit p.limits ind tier <;>
    simp [rangeStep, hv, hl]

/-- The `allCompliant` fold of `checkCompliance` is the conjunction of the
per-row flags. -/
theorem foldl_and_eq_all (l : List EvalResult) (acc : Bool) :
    l.foldl (fun acc r => if r.isCompliant then acc else false) acc
      = (acc && l.all fun r => r.isCompliant) := by
  induction l generalizing acc with
  | nil => simp
  | cons r t ih =>
    rw [List.foldl_cons, ih, List.all_cons]
    cases h : r.isCompliant <;> simp [h]

/-- Table fact: the resolved limit of a parameter, over every industry and
tier, is a range exactly when the parameter is flagged `isRange`. -/
theorem table_limit_shape : ∀ (ind : Industry) (tier : Tier), ∀ p ∈ allParams,
    ((getLimit p.limits ind tier).all fun l => l.isScalar == !p.isRange) = true := by
  intro ind tier
  cases ind <;> cases tier <;> decide

/-- Table fact: no MRSL or heavy-metal parameter is flagged `isRange`. -/
theorem scalar_lists_not_range : ∀ p ∈ mrslParams ++ heavyMetalParams,
    p.isRange = false := by decide

/-- Table fact: within the three chart-eligible lists, parameter ids identify
the parameter. -/
theorem chartable_ids_inj :
    ∀ p ∈ mrslParams ++ heavyMetalParams ++ conventionalParams,
    ∀ q ∈ mrslParams ++ heavyMetalParams ++ conventionalParams,
    p.id = q.id → p = q := by decide

/-- Table fact: no chart-eligible parameter shares an id with a sludge
parameter. -/
theorem chartable_ids_not_sludge :
    ∀ p ∈ mrslParams ++ heavyMetalParams ++ conventionalParams,
    p.id ∉ sludgeParams.map Param.id := by decide

/-- Scalar classification of a present finite value against a present scalar
limit is the inclusive comparison. -/
theorem classifyScalar_fin_scalar (v q : ℚ) :
    classifyScalar (some (JSNum.fin v)) (some (LimitValue.scalar q)) = true ↔ v ≤ q := by
  simp [classifyScalar, JSNum.leQ]

/-- Range classification of a present finite value against a present range
limit is the inclusive two-sided comparison. -/
theorem classifyRange_fin_range (v mn mx : ℚ) :
    classifyRange (some (JSNum.fin v)) (some (LimitValue.range mn mx)) = true
      ↔ mn ≤ v ∧ v ≤ mx := by
  simp [classifyRange, JSNum.geQ, JSNum.leQ]

/-- Scalar classification with an absent value or limit is compliant. -/
theorem classifyScalar_absent (value : Option JSNum) (limit : Option LimitValue)
    (h : value = none ∨ limit = none) : classifyScalar value limit = true := by
  rcases h with rfl | rfl
  · rcases limit with _ | l
    · rfl
    · cases l <;> rfl
  · cases value <;> rfl

/-- Range classification with an absent value or limit is compliant. -/
theorem classifyRange_absent (value : Option JSNum) (limit : Option LimitValue)
    (h : value = none ∨ limit = none) : classifyRange value limit = true := by
  rcases h with rfl | rfl
  · rcases limit with _ | l
    · rfl
    · cases l <;> rfl
  · cases value <;> rfl

/-- MRSL parameters are parameters. -/
theorem mem_allParams_of_mrsl {p : Param} (hp : p ∈ mrslParams) : p ∈ allParams := by
  simp [allParams, hp]

/-- Heavy-metal parameters are parameters. -/
theorem mem_allParams_of_hm {p : Param} (hp : p ∈ heavyMetalParams) : p ∈ allParams := by
  simp [allParams, hp]

/-- Conventional parameters are parameters. -/
theorem mem_allParams_of_conv {p : Param} (hp : p ∈ conventionalParams) : p ∈ allParams := by
  simp [allParams, hp]

/-- Sludge parameters are parameters. -/
theorem mem_allParams_of_sludge {p : Param} (hp : p ∈ sludgeParams) : p ∈ allParams := by
  simp [allParams, hp]

/-- A parameter's resolved limit (when present) is a range exactly when the
parameter is flagged as a range parameter. -/
theorem limit_shape_of_mem (ind : Industry) (tier : Tier) {p : Param}
    (hp : p ∈ allParams) {l : LimitValue}
    (hl : getLimit p.limits ind tier = some l) : l.isScalar = !p.isRange := by
  have h := table_limit_shape ind tier p hp
  rw [hl] at h
  simpa using h

/-- An empty raw input parses to an absent value. -/
theorem getInputValue_empty (params : String → String) (id : String)
    (h : params id = "") : getInputValue params id = none := by
  unfold getInputValue
  rw [h]
  decide

/-- The measured value recorded by the conventional-loop body. -/
theorem conventionalStep_value (params : String → String) (ind : Industry)
    (tier : Tier) (p : Param) :
    ((conventionalStep params ind tier p).1).value = getInputValue params p.id := by
  unfold conventionalStep
  split <;> rfl

/-- The measured value recorded by the sludge-loop body. -/
theorem sludgeStep_value (params : String → String) (ind : Industry)
    (tier : Tier) (p : Param) :
    (sludgeStep params ind tier p).value = getInputValue params p.id := by
  rw [sludgeStep_eq]
  split <;> rfl

/-- A row with an absent measured value or an absent resolved limit is
classified compliant. -/
theorem result_compliant_of_absent (params : String → String) (ind : Industry)
    (tier : Tier) (d : DischargeType) (r : EvalResult)
    (hr : r ∈ (checkCompliance params ind tier d).results)
    (h : r.value = none ∨ r.limit = none) : r.isCompliant = true := by
  rw [mem_results_iff] at hr
  rcases hr with ⟨p, hp, he⟩ | ⟨p, hp, he⟩ | ⟨p, hp, he⟩ | ⟨p, hp, he⟩ <;> subst he
  · simp only [scalarStep_fst] at h ⊢
    exact classifyScalar_absent _ _ h
  · simp only [scalarStep_fst] at h ⊢
    exact classifyScalar_absent _ _ h
  · cases hC : p.isRange <;> simp only [conventionalStep, hC, Bool.false_eq_true,
      if_false, if_true, scalarStep_fst, rangeStep_fst] at h ⊢
    · exact classifyScalar_absent _ _ h
    · exact classifyRange_absent _ _ h
  · cases hC : p.isRange <;> simp only [sludgeStep_eq, hC, Bool.false_eq_true,
      if_false, if_true] at h ⊢
    · exact classifyScalar_absent _ _ h
    · exact classifyRange_absent _ _ h

/-- When every raw input is empty, every row is compliant (by default). -/
theorem empty_inputs_all_compliant (params : String → String) (ind : Industry)
    (tier : Tier) (d : DischargeType) (hempty : ∀ id, params id = "") :
    ∀ r ∈ (checkCompliance params ind tier d).results, r.isCompliant = true := by
  intro r hr
  refine result_compliant_of_absent params ind tier d r hr (Or.inl ?_)
  rw [mem_results_iff] at hr
  rcases hr with ⟨p, hp, he⟩ | ⟨p, hp, he⟩ | ⟨p, hp, he⟩ | ⟨p, hp, he⟩ <;> subst he
  · rw [scalarStep_fst]
    exact getInputValue_empty params p.id (hempty p.id)
  · rw [scalarStep_fst]
    exact getInputValue_empty params p.id (hempty p.id)
  · rw [conventionalStep_value]
    exact getInputValue_empty params p.id (hempty p.id)
  · rw [sludgeStep_value]
    exact getInputValue_empty params p.id (hempty p.id)

/-! ### Claims -/

/-- C1: for every limit spec in the static table (and for the absent spec),
and every industry in `{T, L}` and tier in `{F, P, A}`, `getLimit` follows
exactly the spec's resolution algorithm (`resolveLimit`): absent spec →
absent; descend into the industry branch when one is keyed by the industry,
else treat the spec as the flat spec; return the tier's entry if present,
else the Foundational entry if present, else absent. -/
theorem C1_getLimit_follows_spec_algorithm :
    (∀ (ind : Industry) (tier : Tier), getLimit none ind tier = none) ∧
    (∀ (ind : Industry) (tier : Tier), ∀ s ∈ tableSpecs,
      getLimit s ind tier = resolveLimit s ind tier) := by
  constructor
  · intro ind tier
    rfl
  · intro ind tier
    cases ind <;> cases tier <;> decide

/-- Witness for C1 at a concrete table spec, industry and tier. -/
theorem C1_getLimit_follows_spec_algorithm_witness :
    getLimit complianceLimits.mrsl.np Industry.T Tier.P
        = resolveLimit complianceLimits.mrsl.np Industry.T Tier.P ∧
    resolveLimit complianceLimits.mrsl.np Industry.T Tier.P
        = some (LimitValue.scalar 5) :=
  ⟨C1_getLimit_follows_spec_algorithm.2 Industry.T Tier.P
    complianceLimits.mrsl.np (by decide), by decide⟩

/-- C4: every MRSL and sludge parameter defines only a Foundational limit,
and every table spec that defines only a Foundational limit resolves to that
Foundational value for every requested tier and every industry. -/
theorem C4_foundational_only_resolves_for_all_tiers :
    ((mrslParams ++ sludgeParams).all fun p => fOnly p.limits) = true ∧
    (∀ s ∈ tableSpecs, fOnly s = true → ∀ (ind : Industry) (tier : Tier),
      getLimit s ind tier = flatF s) := by
  refine ⟨by decide, ?_⟩
  intro s hs hf ind tier
  revert s hs hf
  cases ind <;> cases tier <;> decide

/-- Witness for C4: the sludge faecal-coliform spec, Leather industry,
Aspirational tier, still resolves to its Foundational value 1000. -/
theorem C4_foundational_only_resolves_for_all_tiers_witness :
    getLimit complianceLimits.sludge.faecal_coliform Industry.L Tier.A
        = flatF complianceLimits.sludge.faecal_coliform ∧
    flatF complianceLimits.sludge.faecal_coliform
        = some (LimitValue.scalar 1000) :=
  ⟨C4_foundational_only_resolves_for_all_tiers.2
    complianceLimits.sludge.faecal_coliform (by decide) (by decide)
    Industry.L Tier.A, by decide⟩

/-- C8: `dischargeType` does not affect evaluation at all — two contexts
differing only in the discharge type give the same per-parameter results, the
same overall flag and the same chart series. -/
theorem C8_dischargeType_noninterference (params : String → String)
    (ind : Industry) (tier : Tier) (d d' : DischargeType) :
    checkCompliance params ind tier d = checkCompliance params ind tier d' := rfl

/-- C9: every check action terminates with exactly one evaluation result per
defined parameter — 45 rows — whose names follow the fixed declaration order
(MRSL, then heavy metals, then conventional, then sludge, each in list
order), for every input set and context.  (Totality of the evaluation — no
fatal error path — is implicit: `checkCompliance` is a total function.) -/
theorem C9_one_result_per_param_in_order (params : String → String)
    (ind : Industry) (tier : Tier) (d : DischargeType) :
    (checkCompliance params ind tier d).results.length = 45 ∧
    (checkCompliance params ind tier d).results.map (fun r => r.paramName)
      = allParams.map (fun p => p.name) :=
  ⟨rfl, rfl⟩

/-- Classification of a row with a present finite value and a present limit:
ranges by inclusive two-sided comparison, scalars by inclusive comparison. -/
theorem row_classification (params : String → String) (ind : Industry)
    (tier : Tier) (d : DischargeType) (r : EvalResult)
    (hr : r ∈ (checkCompliance params ind tier d).results) (v : ℚ)
    (hv : r.value = some (JSNum.fin v)) :
    (∀ mn mx, r.limit = some (LimitValue.range mn mx) →
      (r.isCompliant = true ↔ mn ≤ v ∧ v ≤ mx)) ∧
    (∀ q, r.limit = some (LimitValue.scalar q) →
      (r.isCompliant = true ↔ v ≤ q)) := by
  rw [mem_results_iff] at hr
  rcases hr with ⟨p, hp, he⟩ | ⟨p, hp, he⟩ | ⟨p, hp, he⟩ | ⟨p, hp, he⟩ <;> subst he
  · simp only [scalarStep_fst] at hv ⊢
    constructor
    · intro mn mx hl
      have hs := limit_shape_of_mem ind tier (mem_allParams_of_mrsl hp) hl
      have hnr := scalar_lists_not_range p (List.mem_append_left _ hp)
      rw [hnr] at hs
      simp [LimitValue.isScalar] at hs
    · intro q hl
      rw [hv, hl]
      exact classifyScalar_fin_scalar v q
  · simp only [scalarStep_fst] at hv ⊢
    constructor
    · intro mn mx hl
      have hs := limit_shape_of_mem ind tier (mem_allParams_of_hm hp) hl
      have hnr := scalar_lists_not_range p (List.mem_append_right _ hp)
      rw [hnr] at hs
      simp [LimitValue.isScalar] at hs
    · intro q hl
      rw [hv, hl]
      exact classifyScalar_fin_scalar v q
  · cases hC : p.isRange <;> simp only [conventionalStep, hC, Bool.false_eq_true,
      if_false, if_true, scalarStep_fst, rangeStep_fst] at hv ⊢
    · constructor
      · intro mn mx hl
        have hs := limit_shape_of_mem ind tier (mem_allParams_of_conv hp) hl
        rw [hC] at hs
        simp [LimitValue.isScalar] at hs
      · intro q hl
        rw [hv, hl]
        exact classifyScalar_fin_scalar v q
    · constructor
      · intro mn mx hl
        rw [hv, hl]
        exact classifyRange_fin_range v mn mx
      · intro q hl
        have hs := limit_shape_of_mem ind tier (mem_allParams_of_conv hp) hl
        rw [hC] at hs
        simp [LimitValue.isScalar] at hs
  · cases hC : p.isRange <;> simp only [sludgeStep_eq, hC, Bool.false_eq_true,
      if_false, if_true] at hv ⊢
    · constructor
      · intro mn mx hl
        have hs := limit_shape_of_mem ind tier (mem_allParams_of_sludge hp) hl
        rw [hC] at hs
        simp [LimitValue.isScalar] at hs
      · intro q hl
        rw [hv, hl]
        exact classifyScalar_fin_scalar v q
    · constructor
      · intro mn mx hl
        rw [hv, hl]
        exact classifyRange_fin_range v mn mx
      · intro q hl
        have hs := limit_shape_of_mem ind tier (mem_allParams_of_sludge hp) hl
        rw [hC] at hs
        simp [LimitValue.isScalar] at hs

/-- C2: for every row with a present (finite) measured value and a present
resolved limit: against a range limit the row is compliant iff
`min ≤ value ≤ max` (both bounds inclusive); against a scalar limit it is
compliant iff `value ≤ limit` (equality passes). -/
theorem C2_classification (params : String → String) (ind : Industry)
    (tier : Tier) (d : DischargeType) (r : EvalResult)
    (hr : r ∈ (checkCompliance params ind tier d).results) (v : ℚ)
    (hv : r.value = some (JSNum.fin v)) :
    (∀ mn mx, r.limit = some (LimitValue.range mn mx) →
      (r.isCompliant = true ↔ mn ≤ v ∧ v ≤ mx)) ∧
    (∀ q, r.limit = some (LimitValue.scalar q) →
      (r.isCompliant = true ↔ v ≤ q)) :=
  row_classification params ind tier d r hr v hv

/-- Witness for C2 at a concrete input: with every field set to "7", the
MRSL NP row (scalar limit 5) is classified by `7 ≤ 5`, which fails. -/
theorem C2_classification_witness :
    ((⟨"Nonylphenol (NP)", some (JSNum.fin 7), some (LimitValue.scalar 5),
        false, "µg/L"⟩ : EvalResult).isCompliant = true ↔ (7 : ℚ) ≤ 5) ∧
    ¬ ((7 : ℚ) ≤ 5) :=
  ⟨(C2_classification (fun _ => "7") Industry.T Tier.F DischargeType.Direct
      ⟨"Nonylphenol (NP)", some (JSNum.fin 7), some (LimitValue.scalar 5),
        false, "µg/L"⟩ (by decide) 7 rfl).2 5 rfl, by decide⟩

/-- C3: a row whose parsed measured value is absent (empty or unparseable
input) or whose resolved limit is absent is classified compliant; in
particular an empty raw input always yields an absent parsed value, so an
empty-input parameter is compliant regardless of its limit. -/
theorem C3_absent_is_compliant :
    (∀ (params : String → String) (ind : Industry) (tier : Tier)
      (d : DischargeType), ∀ r ∈ (checkCompliance params ind tier d).results,
      r.value = none ∨ r.limit = none → r.isCompliant = true) ∧
    (∀ (params : String → String) (id : String), params id = "" →
      getInputValue params id = none) :=
  ⟨result_compliant_of_absent, getInputValue_empty⟩

/-- Witness for C3: with all inputs empty, the NP row has an absent value and
is compliant even though its table limit is 5. -/
theorem C3_absent_is_compliant_witness :
    (⟨"Nonylphenol (NP)", none, some (LimitValue.scalar 5), true, "µg/L"⟩
        : EvalResult).isCompliant = true ∧
    getInputValue (fun _ => "") "np" = none :=
  ⟨C3_absent_is_compliant.1 (fun _ => "") Industry.T Tier.F DischargeType.Direct
      ⟨"Nonylphenol (NP)", none, some (LimitValue.scalar 5), true, "µg/L"⟩
      (by decide) (Or.inl rfl),
   C3_absent_is_compliant.2 (fun _ => "") "np" rfl⟩

/-- C6: the overall flag is the AND of all per-row compliant flags; it is
`false` iff at least one row is non-compliant; and it is `true` when every
input is empty (all rows compliant by default). -/
theorem C6_overall_is_conjunction (params : String → String) (ind : Industry)
    (tier : Tier) (d : DischargeType) :
    ((checkCompliance params ind tier d).overallCompliant
        = ((checkCompliance params ind tier d).results.all fun r => r.isCompliant)) ∧
    ((checkCompliance params ind tier d).overallCompliant = false ↔
      ∃ r ∈ (checkCompliance params ind tier d).results, r.isCompliant = false) ∧
    ((∀ id, params id = "") →
      (checkCompliance params ind tier d).overallCompliant = true) := by
  have h1 : (checkCompliance params ind tier d).overallCompliant
      = ((checkCompliance params ind tier d).results.all fun r => r.isCompliant) := by
    show ((checkCompliance params ind tier d).results.foldl
        (fun acc r => if r.isCompliant then acc else false) true) = _
    rw [foldl_and_eq_all, Bool.true_and]
  refine ⟨h1, ?_, ?_⟩
  · rw [h1]
    constructor
    · intro h
      by_contra hno
      push_neg at hno
      have : (checkCompliance params ind tier d).results.all
          (fun r => r.isCompliant) = true := by
        rw [List.all_eq_true]
        intro r hr
        have := hno r hr
        revert this
        cases r.isCompliant <;> simp
      rw [this] at h
      exact absurd h (by decide)
    · intro ⟨r, hr, hrf⟩
      by_contra hne
      have : (checkCompliance params ind tier d).results.all
          (fun r => r.isCompliant) = true := by
        revert hne
        cases ((checkCompliance params ind tier d).results.all fun r => r.isCompliant) <;> simp
      rw [List.all_eq_true] at this
      have := this r hr
      rw [hrf] at this
      exact absurd this (by decide)
  · intro hempty
    rw [h1, List.all_eq_true]
    exact empty_inputs_all_compliant params ind tier d hempty

/-- Witness for C6: all-empty inputs give an overall-compliant outcome. -/
theorem C6_overall_is_conjunction_witness :
    (checkCompliance (fun _ => "") Industry.T Tier.F
        DischargeType.Direct).overallCompliant = true :=
  (C6_overall_is_conjunction (fun _ => "") Industry.T Tier.F
    DischargeType.Direct).2.2 (fun _ => rfl)

/-- The resolved limit recorded by the conventional-loop body. -/
theorem conventionalStep_limit (params : String → String) (ind : Industry)
    (tier : Tier) (p : Param) :
    ((conventionalStep params ind tier p).1).limit = getLimit p.limits ind tier := by
  unfold conventionalStep
  split <;> rfl

/-- The resolved limit recorded by the sludge-loop body. -/
theorem sludgeStep_limit (params : String → String) (ind : Industry)
    (tier : Tier) (p : Param) :
    (sludgeStep params ind tier p).limit = getLimit p.limits ind tier := by
  rw [sludgeStep_eq]
  split <;> rfl

/-- Every row's recorded limit is the resolved limit of one of the defined
parameters. -/
theorem result_limit_eq (params : String → String) (ind : Industry)
    (tier : Tier) (d : DischargeType) (r : EvalResult)
    (hr : r ∈ (checkCompliance params ind tier d).results) :
    ∃ p ∈ allParams, r.limit = getLimit p.limits ind tier := by
  rw [mem_results_iff] at hr
  rcases hr with ⟨p, hp, he⟩ | ⟨p, hp, he⟩ | ⟨p, hp, he⟩ | ⟨p, hp, he⟩ <;> subst he
  · exact ⟨p, mem_allParams_of_mrsl hp, by rw [scalarStep_fst]⟩
  · exact ⟨p, mem_allParams_of_hm hp, by rw [scalarStep_fst]⟩
  · exact ⟨p, mem_allParams_of_conv hp, conventionalStep_limit params ind tier p⟩
  · exact ⟨p, mem_allParams_of_sludge hp, sludgeStep_limit params ind tier p⟩

/-- Table fact: every scalar limit resolvable from the static table is
strictly positive. -/
theorem table_scalar_pos : ∀ (ind : Industry) (tier : Tier), ∀ s ∈ tableSpecs,
    ((getLimit s ind tier).all fun l =>
      match l with
      | LimitValue.scalar q => decide (0 < q)
      | LimitValue.range _ _ => true) = true := by
  intro ind tier
  cases ind <;> cases tier <;> decide

/-- MRSL parameters are chart-eligible. -/
theorem mem_chartable_of_mrsl {p : Param} (hp : p ∈ mrslParams) :
    p ∈ mrslParams ++ heavyMetalParams ++ conventionalParams := by
  simp [hp]

/-- Heavy-metal parameters are chart-eligible. -/
theorem mem_chartable_of_hm {p : Param} (hp : p ∈ heavyMetalParams) :
    p ∈ mrslParams ++ heavyMetalParams ++ conventionalParams := by
  simp [hp]

/-- Conventional parameters are chart-eligible. -/
theorem mem_chartable_of_conv {p : Param} (hp : p ∈ conventionalParams) :
    p ∈ mrslParams ++ heavyMetalParams ++ conventionalParams := by
  simp [hp]

/-- Membership in the chart output of a `conventionalStep`. -/
theorem mem_conventionalStep_chart (params : String → String) (ind : Industry)
    (tier : Tier) (p : Param) (c : ChartPoint) :
    c ∈ (conventionalStep params ind tier p).2 ↔
      ∃ v l, getInputValue params p.id = some v ∧
        getLimit p.limits ind tier = some l ∧
        c = (if p.isRange then
              (⟨p.id, p.name, v, (l.maxF).map LimitValue.scalar, l.minF, p.unit⟩
                : ChartPoint)
            else ⟨p.id, p.name, v, some l, none, p.unit⟩) := by
  unfold conventionalStep
  cases hC : p.isRange <;>
    simp [hC, mem_scalarStep_chart, mem_rangeStep_chart]

/-- Every chart point comes from a chart-eligible parameter, with both value
and limit present, and has the exact record shape pushed by the loop body. -/
theorem mem_chartData_elim (params : String → String) (ind : Industry)
    (tier : Tier) (d : DischargeType) (c : ChartPoint)
    (hc : c ∈ (checkCompliance params ind tier d).chartData) :
    ∃ q ∈ mrslParams ++ heavyMetalParams ++ conventionalParams,
      c.id = q.id ∧
      ∃ v l, getInputValue params q.id = some v ∧
        getLimit q.limits ind tier = some l ∧
        c = (if q.isRange then
              (⟨q.id, q.name, v, (l.maxF).map LimitValue.scalar, l.minF, q.unit⟩
                : ChartPoint)
            else ⟨q.id, q.name, v, some l, none, q.unit⟩) := by
  rw [mem_chartData_iff] at hc
  rcases hc with ⟨q, hq, hm⟩ | ⟨q, hq, hm⟩ | ⟨q, hq, hm⟩
  · rw [mem_scalarStep_chart] at hm
    obtain ⟨v, l, hv, hl, hce⟩ := hm
    have hnr : q.isRange = false :=
      scalar_lists_not_range q (List.mem_append_left _ hq)
    subst hce
    exact ⟨q, mem_chartable_of_mrsl hq, rfl,
      v, l, hv, hl, by rw [hnr]; rfl⟩
  · rw [mem_scalarStep_chart] at hm
    obtain ⟨v, l, hv, hl, hce⟩ := hm
    have hnr : q.isRange = false :=
      scalar_lists_not_range q (List.mem_append_right _ hq)
    subst hce
    exact ⟨q, mem_chartable_of_hm hq, rfl,
      v, l, hv, hl, by rw [hnr]; rfl⟩
  · rw [mem_conventionalStep_chart] at hm
    obtain ⟨v, l, hv, hl, hce⟩ := hm
    subst hce
    refine ⟨q, mem_chartable_of_conv hq, ?_, v, l, hv, hl, rfl⟩
    cases hC : q.isRange <;> rfl

/-- Whenever a chart-eligible parameter has both a parsed value and a resolved
limit, the loop body's chart record is in the chart series. -/
theorem mem_chartData_intro (params : String → String) (ind : Industry)
    (tier : Tier) (d : DischargeType) {p : Param}
    (hp : p ∈ mrslParams ++ heavyMetalParams ++ conventionalParams)
    {v : JSNum} {l : LimitValue} (hv : getInputValue params p.id = some v)
    (hl : getLimit p.limits ind tier = some l) :
    (if p.isRange then
      (⟨p.id, p.name, v, (l.maxF).map LimitValue.scalar, l.minF, p.unit⟩
        : ChartPoint)
    else ⟨p.id, p.name, v, some l, none, p.unit⟩)
      ∈ (checkCompliance params ind tier d).chartData := by
  rw [mem_chartData_iff]
  rcases List.mem_append.mp hp with hp12 | hp3
  · rcases List.mem_append.mp hp12 with hp1 | hp2
    · refine Or.inl ⟨p, hp1, ?_⟩
      rw [scalar_lists_not_range p (List.mem_append_left _ hp1)]
      rw [mem_scalarStep_chart]
      exact ⟨v, l, hv, hl, rfl⟩
    · refine Or.inr (Or.inl ⟨p, hp2, ?_⟩)
      rw [scalar_lists_not_range p (List.mem_append_right _ hp2)]
      rw [mem_scalarStep_chart]
      exact ⟨v, l, hv, hl, rfl⟩
  · refine Or.inr (Or.inr ⟨p, hp3, ?_⟩)
    rw [mem_conventionalStep_chart]
    exact ⟨v, l, hv, hl, rfl⟩

/-- C7: the chart series has a point for a parameter iff both its parsed
value and its resolved limit are present and the parameter is not in the
sludge category (sludge is excluded unconditionally); for range parameters
the point's plotted `limit` is the maximum bound and the point carries the
minimum bound as `minLimit`. -/
theorem C7_chart_series (params : String → String) (ind : Industry)
    (tier : Tier) (d : DischargeType) :
    (∀ p ∈ mrslParams ++ heavyMetalParams ++ conventionalParams,
      ((∃ c ∈ (checkCompliance params ind tier d).chartData, c.id = p.id) ↔
        ((getInputValue params p.id).isSome ∧
          (getLimit p.limits ind tier).isSome))) ∧
    (∀ c ∈ (checkCompliance params ind tier d).chartData,
      c.id ∉ sludgeParams.map Param.id) ∧
    (∀ c ∈ (checkCompliance params ind tier d).chartData,
      ∀ p ∈ mrslParams ++ heavyMetalParams ++ conventionalParams,
      c.id = p.id → p.isRange = true →
      ∀ mn mx, getLimit p.limits ind tier = some (LimitValue.range mn mx) →
      c.limit = some (LimitValue.scalar mx) ∧ c.minLimit = some mn) := by
  refine ⟨?_, ?_, ?_⟩
  · intro p hp
    constructor
    · intro ⟨c, hc, hcp⟩
      obtain ⟨q, hq, hid, v, l, hv, hl, _⟩ :=
        mem_chartData_elim params ind tier d c hc
      have hqp : q = p := chartable_ids_inj q hq p hp (hid.symm.trans hcp)
      subst hqp
      rw [hv, hl]
      exact ⟨rfl, rfl⟩
    · intro ⟨hvs, hls⟩
      obtain ⟨v, hv⟩ := Option.isSome_iff_exists.mp hvs
      obtain ⟨l, hl⟩ := Option.isSome_iff_exists.mp hls
      refine ⟨_, mem_chartData_intro params ind tier d hp hv hl, ?_⟩
      cases p.isRange <;> rfl
  · intro c hc
    obtain ⟨q, hq, hid, _⟩ := mem_chartData_elim params ind tier d c hc
    rw [hid]
    exact chartable_ids_not_sludge q hq
  · intro c hc p hp hcp hr mn mx hlim
    obtain ⟨q, hq, hid, v, l, hv, hl, hce⟩ :=
      mem_chartData_elim params ind tier d c hc
    have hqp : q = p := chartable_ids_inj q hq p hp (hid.symm.trans hcp)
    subst hqp
    rw [hl] at hlim
    injection hlim with hlr
    subst hlr
    subst hce
    rw [hr]
    simp [LimitValue.maxF, LimitValue.minF]

/-- Witness for C7: with every field set to "7" (Textile, Foundational) the
NP parameter has value and limit present, so it has a chart point. -/
theorem C7_chart_series_witness :
    (∃ c ∈ (checkCompliance (fun _ => "7") Industry.T Tier.F
        DischargeType.Direct).chartData, c.id = "np") ↔
      ((getInputValue (fun _ => "7") "np").isSome ∧
        (getLimit complianceLimits.mrsl.np Industry.T Tier.F).isSome) :=
  (C7_chart_series (fun _ => "7") Industry.T Tier.F DischargeType.Direct).1
    ⟨"np", "Nonylphenol (NP)", complianceLimits.mrsl.np, some "µg/L", false⟩
    (by decide)

/-- C10 (implicit): every scalar limit resolvable from the static table is
strictly positive, and therefore a row with a present strictly negative
(finite) measured value and a present scalar limit is always classified
compliant — a physically implausible negative reading can never produce a
visible failure on a scalar-limited parameter. -/
theorem C10_negative_readings_pass_scalar_limits :
    (∀ (ind : Industry) (tier : Tier), ∀ s ∈ tableSpecs,
      ((getLimit s ind tier).all fun l =>
        match l with
        | LimitValue.scalar q => decide (0 < q)
        | LimitValue.range _ _ => true) = true) ∧
    (∀ (params : String → String) (ind : Industry) (tier : Tier)
      (d : DischargeType), ∀ r ∈ (checkCompliance params ind tier d).results,
      ∀ v : ℚ, r.value = some (JSNum.fin v) → v < 0 →
      ∀ q, r.limit = some (LimitValue.scalar q) → r.isCompliant = true) := by
  refine ⟨table_scalar_pos, ?_⟩
  intro params ind tier d r hr v hv hneg q hl
  obtain ⟨p, hp, hlim⟩ := result_limit_eq params ind tier d r hr
  have hgl : getLimit p.limits ind tier = some (LimitValue.scalar q) :=
    hlim.symm.trans hl
  have hpos : 0 < q := by
    have h := table_scalar_pos ind tier p.limits
      (List.mem_map_of_mem Param.limits hp)
    rw [hgl] at h
    simpa using h
  exact ((row_classification params ind tier d r hr v hv).2 q hl).mpr
    (hneg.trans hpos).le

/-- Witness for C10: a reading of −1 against the NP scalar limit 5 is
compliant. -/
theorem C10_negative_readings_pass_scalar_limits_witness :
    (⟨"Nonylphenol (NP)", some (JSNum.fin (-1)), some (LimitValue.scalar 5),
        true, "µg/L"⟩ : EvalResult).isCompliant = true :=
  C10_negative_readings_pass_scalar_limits.2 (fun _ => "-1") Industry.T Tier.F
    DischargeType.Direct
    ⟨"Nonylphenol (NP)", some (JSNum.fin (-1)), some (LimitValue.scalar 5),
      true, "µg/L"⟩
    (by decide) (-1) rfl (by decide) 5 rfl

/-- C5 counterexample: the raw input "3abc" is not empty and not a valid
decimal number, yet `getInputValue` returns the number 3 rather than absent,
because `parseFloat` reads the longest numeric prefix.  This refutes
"returns a number exactly when the string is a valid decimal number, and
returns absent exactly when the string is empty or not a valid number". -/
theorem C5_counterexample_trailing_garbage :
    getInputValue (fun _ => "3abc") "np" = some (JSNum.fin 3) ∧
    isValidDecimal "3abc" = false ∧ "3abc" ≠ "" :=
  ⟨by decide, by decide, by decide⟩

/-- C5 (amended): `getInputValue` returns a number exactly when the raw text,
after optional leading whitespace and an optional sign, starts with a decimal
digit, a decimal point followed by a digit, or the word `Infinity` (the number
is read from the longest valid prefix); in particular the empty string parses
to absent.  It never throws (the parser is a total function). -/
theorem C5_parser_succeeds_iff_numeric_head :
    (∀ (params : String → String) (id : String),
      (getInputValue params id).isSome = startsNumeric (params id)) ∧
    (∀ (params : String → String) (id : String), params id = "" →
      getInputValue params id = none) :=
  ⟨getInputValue_isSome_eq, getInputValue_empty⟩

/-- Witness for C5 (amended) at concrete inputs: "12.5" parses to a number,
"" parses to absent. -/
theorem C5_parser_succeeds_iff_numeric_head_witness :
    ((getInputValue (fun _ => "12.5") "np").isSome = startsNumeric "12.5" ∧
      startsNumeric "12.5" = true) ∧
    getInputValue (fun _ => "") "np" = none :=
  ⟨⟨C5_parser_succeeds_iff_numeric_head.1 (fun _ => "12.5") "np", by decide⟩,
   C5_parser_succeeds_iff_numeric_head.2 (fun _ => "") "np" rfl⟩
